import Mathlib

/-
Verification of the static-extraction engine of `generate_training_log.py`
(repository CalliPaint-Novel).

The program statically inspects a training script's raw text with regular
expressions, walks its Python syntax tree to recover a list-valued field,
and reads two fields from a YAML configuration document.  The embedding
below models:

  * script text as `List Char`;
  * each of the program's concrete regular expressions as a character-level
    leftmost-match scanner with exactly the semantics of the Python pattern
    (lazy capture up to the first closing quote, `re.DOTALL` gap search,
    `re.MULTILINE` line anchoring);
  * the outcome of `ast.parse` / `ast.walk` as an optional list of
    assignment nodes carried alongside the text (`Script.ast`): `none`
    models a `SyntaxError`, `some assigns` models the `ast.Assign` nodes
    visited by `ast.walk`;
  * the YAML file as an optional parsed document (`YamlFile`), with
    Python's `dict.get` modeled by `pyGet`, which fails (AttributeError)
    on non-mapping values.

Python strings are `List Char`; Python's `None`-able fields are `Option`.
-/

set_option autoImplicit false

namespace CalliPaint

/-- Python's `\s` / `str.strip()` whitespace, restricted to ASCII
(the program's inputs are ASCII source text). -/
def isSpace (c : Char) : Bool :=
  c = ' ' || c = '\t' || c = '\n' || c = '\r' || c = '\x0b' || c = '\x0c'

/-- The character class `['"]` appearing in every path-capturing pattern. -/
def isQuote (c : Char) : Bool :=
  c = '\'' || c = '"'

/-- The character set of `line.strip("', ")` in the textual fallback. -/
def isStrip (c : Char) : Bool :=
  c = '\'' || c = ',' || c = ' '

/-- Consume an exact literal from the front of `s`, returning the rest. -/
def eatLit : List Char → List Char → Option (List Char)
  | [], s => some s
  | _ :: _, [] => none
  | p :: ps, c :: cs => if p = c then eatLit ps cs else none

/-- First-of-two choice on `Option` (leftmost match wins). -/
def pickFirst {α : Type} : Option α → Option α → Option α
  | some v, _ => some v
  | none, y => y

/-- Try a matcher at every position of the text, left to right, returning
the first success: the semantics of `re.search` for our patterns. -/
def scanFirst {α : Type} (f : List Char → Option α) : List Char → Option α
  | [] => f []
  | c :: t => pickFirst (f (c :: t)) (scanFirst f t)

/-- Lazy capture `(.*?)` up to the first `'` or `"` (with `re.DOTALL` the
dot also matches newlines); `none` when no closing quote follows. -/
def takeUntilQuote : List Char → Option (List Char)
  | [] => none
  | c :: t => if isQuote c then some [] else Option.map (fun l => c :: l) (takeUntilQuote t)

/-- Lazy capture `(.*?)` up to the first `]` (under `re.DOTALL`). -/
def takeUntilRB : List Char → Option (List Char)
  | [] => none
  | c :: t => if c = ']' then some [] else Option.map (fun l => c :: l) (takeUntilRB t)

/-- After the `=`: an opening quote then the lazy capture. -/
def afterQuote : List Char → Option (List Char)
  | [] => none
  | c :: t => if isQuote c then takeUntilQuote t else none

/-- After the variable name: `\s*=\s*['"](.*?)['"]`. -/
def afterEq : List Char → Option (List Char)
  | [] => none
  | c :: t => if c = '=' then afterQuote (t.dropWhile isSpace) else none

/-- Match `name\s*=\s*['"](.*?)['"]` anchored at the head of `s`,
returning the captured group. -/
def matchAssignHere (name : List Char) (s : List Char) : Option (List Char) :=
  match eatLit name s with
  | none => none
  | some s1 => afterEq (s1.dropWhile isSpace)

/-- Semantics of `re.search(name + r"\s*=\s*['\"](.*?)['\"]", content)`, group 1. -/
def searchAssign (name : List Char) (s : List Char) : Option (List Char) :=
  scanFirst (matchAssignHere name) s

/-- Remainder of the text after the first occurrence of a literal. -/
def findLit (lit : List Char) (s : List Char) : Option (List Char) :=
  scanFirst (eatLit lit) s

/-- The branch patterns `LIT.*?name\s*=\s*['"](.*?)['"]` with `re.DOTALL`:
first occurrence of the literal, then the first assignment match after it.
(Leftmost-match: if no assignment follows the first literal occurrence,
none follows any later one either, so the whole pattern fails.) -/
def searchAfterLit (lit name : List Char) (s : List Char) : Option (List Char) :=
  match findLit lit s with
  | none => none
  | some rest => searchAssign name rest

/-- Base-10 value of a digit run, as computed by Python's `int`. -/
def natOfDigits (ds : List Char) : Nat :=
  ds.foldl (fun n c => 10 * n + (c.toNat - 48)) 0

/-- After `TRAINING_STAGE\s*`: `=\s*(\d+)` (greedy digit run, nonempty). -/
def stageAfterName : List Char → Option Nat
  | [] => none
  | c :: t =>
    if c = '=' then
      match (t.dropWhile isSpace).takeWhile Char.isDigit with
      | [] => none
      | d :: ds => some (natOfDigits (d :: ds))
    else none

/-- The literal `TRAINING_STAGE`. -/
def stageLit : List Char :=
  ['T', 'R', 'A', 'I', 'N', 'I', 'N', 'G', '_', 'S', 'T', 'A', 'G', 'E']

/-- Match the stage pattern anchored at the head of `s`. -/
def matchStageHere (s : List Char) : Option Nat :=
  match eatLit stageLit s with
  | none => none
  | some s1 => stageAfterName (s1.dropWhile isSpace)

/-- Scan only line-start positions (`^` under `re.MULTILINE`): position 0
and every position following a newline, leftmost first. -/
def stageScan : Bool → List Char → Option Nat
  | _, [] => none
  | atStart, c :: t =>
    if atStart then pickFirst (matchStageHere (c :: t)) (stageScan (c = '\n') t)
    else stageScan (c = '\n') t

/-- Semantics of `re.search(r'^TRAINING_STAGE\s*=\s*(\d+)', content, re.MULTILINE)`. -/
def searchStage (s : List Char) : Option Nat :=
  stageScan true s

/-- The variable name `json_paths` (used both by the syntax-tree walk and
by the textual fallback pattern). -/
def jsonLit : List Char :=
  ['j', 's', 'o', 'n', '_', 'p', 'a', 't', 'h', 's']

/-- After the `=`: an opening `[` then the lazy capture up to `]`. -/
def jsonBracket : List Char → Option (List Char)
  | [] => none
  | c :: t => if c = '[' then takeUntilRB t else none

/-- After `json_paths\s*`: `=\s*\[(.*?)\]`. -/
def jsonAfterEq : List Char → Option (List Char)
  | [] => none
  | c :: t => if c = '=' then jsonBracket (t.dropWhile isSpace) else none

/-- Match `json_paths\s*=\s*\[(.*?)\]` anchored at the head of `s`. -/
def matchJsonHere (s : List Char) : Option (List Char) :=
  match eatLit jsonLit s with
  | none => none
  | some s1 => jsonAfterEq (s1.dropWhile isSpace)

/-- Python's `str.split('\n')`: split on every newline, keeping empty pieces. -/
def splitOnNl : List Char → List (List Char)
  | [] => [[]]
  | c :: t =>
    if c = '\n' then [] :: splitOnNl t
    else
      match splitOnNl t with
      | [] => [[c]]
      | l :: ls => (c :: l) :: ls

/-- Python's `str.strip(...)` for a character class: drop matching characters from
both ends. -/
def stripBoth (p : Char → Bool) (l : List Char) : List Char :=
  ((l.dropWhile p).reverse.dropWhile p).reverse

/-- Keep a line only when nonempty (`if clean_path:`). -/
def keepNonEmpty : List Char → Option (List Char)
  | [] => none
  | c :: t => some (c :: t)

/-- After `line.strip()`: drop blank lines and lines starting with `#`,
then apply `line.strip("', ")` and keep the result when nonempty. -/
def dropHash : List Char → Option (List Char)
  | [] => none
  | c :: t => if c = '#' then none else keepNonEmpty (stripBoth isStrip (c :: t))

/-- One line of the fallback loop: `line.strip()`, drop blanks and lines
starting with `#`, then `line.strip("', ")`, dropped if it comes out
empty. -/
def cleanLine (line : List Char) : Option (List Char) :=
  dropHash (stripBoth isSpace line)

/-- A Python constant as it can appear in an `ast.Constant` node of the
`json_paths` list (the program appends `elt.value` whatever its type). -/
inductive PyVal where
  | pstr : List Char → PyVal
  | pint : Int → PyVal
  | pbool : Bool → PyVal
  | pnone : PyVal
deriving DecidableEq

/-- An element of the `json_paths` list literal, classified exactly the way
the walk's `isinstance` chain classifies it. -/
inductive PyElt where
  | constant : PyVal → PyElt
  | strNode : List Char → PyElt
  | call : PyElt
  | otherExpr : PyElt
deriving DecidableEq

/-- The assigned value of an `ast.Assign` node: a list literal or not. -/
inductive PyExpr where
  | listLit : List PyElt → PyExpr
  | nonList : PyExpr
deriving DecidableEq

/-- An assignment target: an `ast.Name` or some other target form. -/
inductive PyTarget where
  | name : List Char → PyTarget
  | other : PyTarget
deriving DecidableEq

/-- An `ast.Assign` node as visited by `ast.walk`. -/
structure PyAssign where
  targets : List PyTarget
  value : PyExpr
deriving DecidableEq

/-- The sentinel appended for `ast.Call` elements. -/
def dynamicSentinel : List Char :=
  "Dynamic Path (calculated in code)".toList

/-- The body of the element loop: `ast.Constant` appends `elt.value`,
`ast.Str` appends `elt.s`, `ast.Call` appends the sentinel, and any other
node falls through the `elif` chain and appends nothing. -/
def eltVal : PyElt → Option PyVal
  | .constant v => some v
  | .strNode s => some (.pstr s)
  | .call => some (.pstr dynamicSentinel)
  | .otherExpr => none

/-- Contribution of a single assignment target. -/
def targetContrib (t : PyTarget) (v : PyExpr) : List PyVal :=
  match t with
  | .name n =>
    if n = jsonLit then
      match v with
      | .listLit elts => elts.filterMap eltVal
      | .nonList => []
    else []
  | .other => []

/-- Contribution of one `ast.Assign` node (loop over its targets). -/
def assignContrib (a : PyAssign) : List PyVal :=
  a.targets.foldl (fun acc t => acc ++ targetContrib t a.value) []

/-- The whole `ast.walk` loop appending into `info['json_paths']`. -/
def astJsonPaths (assigns : List PyAssign) : List PyVal :=
  assigns.foldl (fun acc a => acc ++ assignContrib a) []

/-- A training script: its raw text, together with the outcome of
`ast.parse(content)` (`none` models a `SyntaxError`, `some assigns` models
the `ast.Assign` nodes visited by `ast.walk`). -/
structure Script where
  content : List Char
  ast : Option (List PyAssign)

/-- The `info` dictionary built by `parse_train_py`. -/
structure ExtractedTrainingInfo where
  training_stage : Option Nat
  resume_path : List Char
  config_path : Option (List Char)
  root_dir : List Char
  json_paths : List PyVal
  base_ckpt_source : List Char
deriving DecidableEq

/-- Default sentinel `'Unknown'`. -/
def unknownStr : List Char := "Unknown".toList

/-- Default `'./checkpoints'`. -/
def rootDefault : List Char := "./checkpoints".toList

/-- The label `"Stage 1 Logic (Image Gen)"`. -/
def stage1Label : List Char := "Stage 1 Logic (Image Gen)".toList

/-- The label `"Stage 2 Logic (Text-in-Image)"`. -/
def stage2Label : List Char := "Stage 2 Logic (Text-in-Image)".toList

/-- The literal `if TRAINING_STAGE == 1:` opening the stage-1 pattern. -/
def ifLit : List Char :=
  ['i', 'f', ' ', 'T', 'R', 'A', 'I', 'N', 'I', 'N', 'G', '_', 'S', 'T', 'A', 'G', 'E',
   ' ', '=', '=', ' ', '1', ':']

/-- The literal `else:` opening the stage-2 pattern. -/
def elseLit : List Char := ['e', 'l', 's', 'e', ':']

/-- The variable name `resume_path`. -/
def rpLit : List Char := ['r', 'e', 's', 'u', 'm', 'e', '_', 'p', 'a', 't', 'h']

/-- The variable name `config_path`. -/
def cpLit : List Char := ['c', 'o', 'n', 'f', 'i', 'g', '_', 'p', 'a', 't', 'h']

/-- The variable name `root_dir`. -/
def rdLit : List Char := ['r', 'o', 'o', 't', '_', 'd', 'i', 'r']

/-- Step 4 of `parse_train_py`: the stage-conditioned branch search for
`resume_path`, returning the path together with `base_ckpt_source`.
Both keep their `'Unknown'` defaults when the branch pattern fails. -/
def resumeAndLabel (content : List Char) : List Char × List Char :=
  if searchStage content = some 1 then
    match searchAfterLit ifLit rpLit content with
    | some v => (v, stage1Label)
    | none => (unknownStr, unknownStr)
  else
    match searchAfterLit elseLit rpLit content with
    | some v => (v, stage2Label)
    | none => (unknownStr, unknownStr)

/-- Step 5 fallback: the regex block extraction used when `ast.parse`
raised. -/
def fallbackJsonPaths (content : List Char) : List PyVal :=
  match scanFirst matchJsonHere content with
  | none => []
  | some inner => ((splitOnNl inner).filterMap cleanLine).map .pstr

/-- Step 5 of `parse_train_py`: syntax-tree extraction when the parse
succeeded, textual fallback when it raised. -/
def jsonPathsOf (s : Script) : List PyVal :=
  match s.ast with
  | some assigns => astJsonPaths assigns
  | none => fallbackJsonPaths s.content

/-- The whole extraction over a readable script text (`parse_train_py`
after the existence check). -/
def extractInfo (s : Script) : ExtractedTrainingInfo :=
  { training_stage := searchStage s.content
    resume_path := (resumeAndLabel s.content).1
    config_path := searchAssign cpLit s.content
    root_dir := (searchAssign rdLit s.content).getD rootDefault
    json_paths := jsonPathsOf s
    base_ckpt_source := (resumeAndLabel s.content).2 }

/-- Model of `parse_train_py`: `None` when the script file is missing, otherwise
the populated `info` dictionary. -/
def parse_train_py : Option Script → Option ExtractedTrainingInfo
  | none => none
  | some s => some (extractInfo s)

/-- A parsed YAML value (`yaml.safe_load` result): mapping, sequence, or
scalar. -/
inductive Yaml where
  | str : List Char → Yaml
  | int : Int → Yaml
  | bool : Bool → Yaml
  | null : Yaml
  | seq : List Yaml → Yaml
  | map : List (List Char × Yaml) → Yaml

/-- Whether a YAML value is a mapping (a Python `dict`). -/
def Yaml.isMapB : Yaml → Bool
  | .map _ => true
  | _ => false

/-- First-match association lookup inside a YAML mapping. -/
def lookupKV (k : List Char) : List (List Char × Yaml) → Option Yaml
  | [] => none
  | (k2, v) :: t => if k2 = k then some v else lookupKV k t

/-- Python's `value.get(key, default)`: on a `dict` it returns the entry or
the default; on any other value it raises `AttributeError`. -/
def pyGet (v : Yaml) (k : List Char) (dflt : Yaml) : Except Unit Yaml :=
  match v with
  | .map kvs => .ok ((lookupKV k kvs).getD dflt)
  | _ => .error ()

/-- The state of the structured configuration document at `yaml_path`:
missing file, file that fails `yaml.safe_load`, or parsed document. -/
inductive YamlFile where
  | missing : YamlFile
  | unparseable : YamlFile
  | parsed : Yaml → YamlFile

/-- The `info` dictionary built by `parse_yaml_config`. -/
structure YamlConfigInfo where
  injection : Yaml
  use_calligraphy : Yaml

/-- The sentinel `'Unknown'` as a YAML-field value. -/
def unknownY : Yaml := .str unknownStr

/-- The sentinel `'Not Set'`. -/
def notSetStr : List Char := "Not Set".toList

/-- The key `model`. -/
def modelKey : List Char := "model".toList

/-- The key `params`. -/
def paramsKey : List Char := "params".toList

/-- The key `context_injection_config`. -/
def injKey : List Char := "context_injection_config".toList

/-- The key `embedding_manager_config`. -/
def embKey : List Char := "embedding_manager_config".toList

/-- The key `use_calligraphy_style`. -/
def calKey : List Char := "use_calligraphy_style".toList

/-- The `try` block of `parse_yaml_config`, with each `.get` step an
exception point.  `info['injection']` is assigned before the
`embedding_manager_config` navigation, so an exception there keeps the
already-extracted injection value while `use_calligraphy` stays
`'Unknown'`; an exception at or before the injection lookup leaves both at
`'Unknown'`. -/
def parse_yaml_body (config : Yaml) : YamlConfigInfo :=
  match pyGet config modelKey (.map []) with
  | .error _ => ⟨unknownY, unknownY⟩
  | .ok model =>
    match pyGet model paramsKey (.map []) with
    | .error _ => ⟨unknownY, unknownY⟩
    | .ok params =>
      match pyGet params injKey (.str notSetStr) with
      | .error _ => ⟨unknownY, unknownY⟩
      | .ok inj =>
        match pyGet params embKey (.map []) with
        | .error _ => ⟨inj, unknownY⟩
        | .ok emb =>
          match pyGet emb paramsKey (.map []) with
          | .error _ => ⟨inj, unknownY⟩
          | .ok embParams =>
            match pyGet embParams calKey (.bool false) with
            | .error _ => ⟨inj, unknownY⟩
            | .ok cal => ⟨inj, cal⟩

/-- Model of `parse_yaml_config`: both fields default to `'Unknown'`; a missing
file or a `safe_load` failure returns those defaults rather than raising. -/
def parse_yaml_config : YamlFile → YamlConfigInfo
  | .missing => ⟨unknownY, unknownY⟩
  | .unparseable => ⟨unknownY, unknownY⟩
  | .parsed config => parse_yaml_body config

/-- Python's `train_info.get('config_path') or DEFAULT_YAML_PATH`: the `or`
falls back on a missing key (`None`) and on the falsy empty string. -/
def resolveYamlFile (ti : ExtractedTrainingInfo) (defaultPath : List Char) : List Char :=
  match ti.config_path with
  | none => defaultPath
  | some p => if p = [] then defaultPath else p

/-- The decision structure of `main`: no report when `parse_train_py`
returns `None`; otherwise the two info records and the chosen YAML path
feed the (mechanical) report composer.  `fs` models the file system's
answer for the chosen YAML path. -/
def main (script : Option Script) (fs : List Char → YamlFile)
    (defaultPath : List Char) :
    Option (ExtractedTrainingInfo × List Char × YamlConfigInfo) :=
  match parse_train_py script with
  | none => none
  | some ti =>
    let yamlFile := resolveYamlFile ti defaultPath
    some (ti, yamlFile, parse_yaml_config (fs yamlFile))

/-- The text ` = 1` ending the stage line. -/
def stageAssign1 : List Char := [' ', '=', ' ', '1', '\n']

/-- Newline plus a four-space indent. -/
def nlInd : List Char := ['\n', ' ', ' ', ' ', ' ']

/-- The text ` = '` between a variable name and its opening quote. -/
def eqQuote : List Char := [' ', '=', ' ', '\'']

/-- Closing quote plus newline. -/
def quoteNl : List Char := ['\'', '\n']

/-- The fixed stage-2 literal of the templates. -/
def s2path : List Char :=
  ['/', 'c', 'k', 'p', 't', '/', 's', 't', 'a', 'g', 'e', '2', '.', 'c', 'k', 'p', 't']

/-- The fixed stage-1 literal of the templates. -/
def s1path : List Char :=
  ['/', 'c', 'k', 'p', 't', '/', 's', 't', 'a', 'g', 'e', '1', '.', 'c', 'k', 'p', 't']

/-- Script text `TRAINING_STAGE = 1` followed by a stage-1 branch assigning
`resume_path = '<a>'` and an `else:` branch assigning the stage-2 literal. -/
def content1 (a post : List Char) : List Char :=
  stageLit ++ (stageAssign1 ++ (ifLit ++ (nlInd ++ (rpLit ++ (eqQuote ++ (a ++
    (quoteNl ++ (elseLit ++ (nlInd ++ (rpLit ++ (eqQuote ++ (s2path ++
      (quoteNl ++ post)))))))))))))

/-- The text ` = ` plus a digit character ending the stage line. -/
def stageAssignD (d : Char) : List Char := [' ', '=', ' ', d, '\n']

/-- Script text `TRAINING_STAGE = <d>` for a digit `d`, followed by a
stage-1 branch assigning the fixed stage-1 literal and an `else:` branch
assigning `resume_path = '<b>'`. -/
def content2 (d : Char) (b post : List Char) : List Char :=
  stageLit ++ (stageAssignD d ++ (ifLit ++ (nlInd ++ (rpLit ++ (eqQuote ++ (s1path ++
    (quoteNl ++ (elseLit ++ (nlInd ++ (rpLit ++ (eqQuote ++ (b ++
      (quoteNl ++ post)))))))))))))

/-- The string `a.json`. -/
def aJson : List Char := ['a', '.', 'j', 's', 'o', 'n']

/-- The text of `json_paths = ['a.json', 'x' + 'y']`: a list holding one
string literal and one concatenation expression. -/
def c3content : List Char :=
  jsonLit ++ ([' ', '=', ' ', '[', '\''] ++ (aJson ++ (['\'', ',', ' ', '\''] ++
    (['x'] ++ (['\'', ' ', '+', ' ', '\''] ++ (['y'] ++ ['\'', ']', '\n']))))))

/-- The elements of the `c3content` list as classified by the walk: a
string constant and a `BinOp` (neither `Constant`, `Str`, nor `Call`). -/
def c3elts : List PyElt := [.constant (.pstr aJson), .otherExpr]

/-- The parsed `c3content` script. -/
def c3script : Script := ⟨c3content, some [⟨[.name jsonLit], .listLit c3elts⟩]⟩

/-- The text of `json_paths = ['a.json', 2, True, None]`. -/
def c10content : List Char :=
  jsonLit ++ ([' ', '=', ' ', '[', '\''] ++ (aJson ++ (['\'', ',', ' ', '2', ',', ' ',
    'T', 'r', 'u', 'e', ',', ' ', 'N', 'o', 'n', 'e', ']', '\n'])))

/-- The elements of the `c10content` list: constants of four types. -/
def c10elts : List PyElt :=
  [.constant (.pstr aJson), .constant (.pint 2), .constant (.pbool true), .constant .pnone]

/-- The parsed `c10content` script. -/
def c10script : Script := ⟨c10content, some [⟨[.name jsonLit], .listLit c10elts⟩]⟩

/-- Script text beginning `config_path = ''` (an empty-string literal). -/
def contentC8 (post : List Char) : List Char :=
  cpLit ++ ([' ', '=', ' ', '\'', '\''] ++ ('\n' :: post))

/-- One source line of a fallback-template list item: four spaces of
indent, a single-quoted literal, a trailing comma. -/
def lineBody (s : List Char) : List Char :=
  [' ', ' ', ' ', ' ', '\''] ++ (s ++ ['\'', ','])

/-- The interior lines of the template list, one item per line. -/
def itemsOf : List (List Char) → List Char
  | [] => []
  | s :: ss => lineBody s ++ ('\n' :: itemsOf ss)

/-- A comment line body `    # c` (without its newline). -/
def commentBody : List Char := [' ', ' ', ' ', ' ', '#', ' ', 'c']

/-- Script text `json_paths = [` followed by a comment line, one
single-quoted literal per line with trailing commas, and `]`. -/
def contentC4 (ss : List (List Char)) (post : List Char) : List Char :=
  jsonLit ++ ([' ', '=', ' ', '['] ++ ('\n' :: (commentBody ++ ('\n' ::
    (itemsOf ss ++ (']' :: ('\n' :: post)))))))

/-- Whether a list's head (if any) is outside the strip set. -/
def headNotStrip : List Char → Bool
  | [] => true
  | c :: _ => !isStrip c

/-- A list item the fallback recovers exactly: nonempty, free of newlines
and closing brackets, and not starting or ending with a character of the
strip set `', `. -/
def goodItem (s : List Char) : Bool :=
  !s.isEmpty && s.all (fun c => !(c = '\n') && !(c = ']')) &&
    headNotStrip s && headNotStrip s.reverse

/-! ## Theorems -/

example : searchStage "TRAINING_STAGE = 1\nx".toList = some 1 := by decide

example : searchStage "x = 2\n TRAINING_STAGE = 1\n".toList = none := by decide

example : searchAssign cpLit "config_path = 'a.yaml'\n".toList = some "a.yaml".toList := by
  decide

example : searchAssign cpLit "config_path = 3\n".toList = none := by decide

example :
    searchAfterLit elseLit rpLit "resume_path = 'X'\nelse:\n resume_path = 'Y'".toList
      = some ['Y'] := by decide

example : fallbackJsonPaths "json_paths = [\n  'a.json',\n  # c\n  'b',\n]".toList
    = [.pstr "a.json".toList, .pstr ['b']] := by decide

/-- The lazy capture stops exactly at the first closing quote: a
quote-free payload followed by a quote is captured verbatim. -/
theorem takeUntilQuote_append (a r : List Char) (ha : ∀ c ∈ a, isQuote c = false) :
    takeUntilQuote (a ++ '\'' :: r) = some a := by
  induction a with
  | nil => simp [takeUntilQuote, isQuote]
  | cons c t ih =>
    have hc : isQuote c = false := ha c (by simp)
    simp only [List.cons_append, takeUntilQuote, hc, Bool.false_eq_true, if_false,
      List.append_eq]
    rw [ih (fun d hd => ha d (by simp [hd]))]
    rfl

/-- The lazy capture stops exactly at the first `]`. -/
theorem takeUntilRB_append (x r : List Char) (hx : ∀ c ∈ x, c ≠ ']') :
    takeUntilRB (x ++ ']' :: r) = some x := by
  induction x with
  | nil => simp [takeUntilRB]
  | cons c t ih =>
    have hc : c ≠ ']' := hx c (by simp)
    simp only [List.cons_append, takeUntilRB, hc, if_false, List.append_eq]
    rw [ih (fun d hd => hx d (by simp [hd]))]
    rfl

/-- The stage pattern extracts `1` from `content1`. -/
theorem searchStage_content1 (a post : List Char) :
    searchStage (content1 a post) = some 1 := by
  simp [content1, searchStage, stageScan, matchStageHere, eatLit, stageAfterName,
    stageLit, stageAssign1, ifLit, nlInd, rpLit, eqQuote, pickFirst, isSpace, natOfDigits]

/-- The stage-1 branch pattern captures the stage-1 literal of `content1`. -/
theorem stage1Search_content1 (a post : List Char) (ha : ∀ c ∈ a, isQuote c = false) :
    searchAfterLit ifLit rpLit (content1 a post) = some a := by
  simp [content1, searchAfterLit, findLit, searchAssign, scanFirst, pickFirst, eatLit,
    matchAssignHere, afterEq, afterQuote, isQuote, isSpace, stageLit, stageAssign1,
    ifLit, nlInd, rpLit, eqQuote, quoteNl, elseLit]
  rw [takeUntilQuote_append a _ ha]

/-- The branch resolver on `content1`: stage-1 value and stage-1 label. -/
theorem resumeAndLabel_content1 (a post : List Char) (ha : ∀ c ∈ a, isQuote c = false) :
    resumeAndLabel (content1 a post) = (a, stage1Label) := by
  unfold resumeAndLabel
  rw [searchStage_content1, if_pos rfl, stage1Search_content1 a post ha]

/-- C1: for every script text with a `TRAINING_STAGE = 1` line (so the
extracted stage is 1) and a well-formed stage-1 branch assigning a quoted
literal, the extractor returns that stage-1 literal as `resume_path` with
the label "Stage 1 Logic (Image Gen)", and never the stage-2 (else-branch)
literal, even though both literals are present in the text. -/
theorem claim_C1 (a post : List Char) (ast : Option (List PyAssign))
    (ha : ∀ c ∈ a, isQuote c = false) :
    (extractInfo ⟨content1 a post, ast⟩).training_stage = some 1 ∧
    (extractInfo ⟨content1 a post, ast⟩).resume_path = a ∧
    (extractInfo ⟨content1 a post, ast⟩).base_ckpt_source = stage1Label ∧
    (a ≠ s2path → (extractInfo ⟨content1 a post, ast⟩).resume_path ≠ s2path) := by
  have h := resumeAndLabel_content1 a post ha
  refine ⟨searchStage_content1 a post, ?_, ?_, ?_⟩
  · show (resumeAndLabel (content1 a post)).1 = a
    rw [h]
  · show (resumeAndLabel (content1 a post)).2 = stage1Label
    rw [h]
  · intro hne
    show (resumeAndLabel (content1 a post)).1 ≠ s2path
    rw [h]
    exact hne

/-- C1 witness: the theorem applied to the concrete literal `A` with empty
trailing text. -/
theorem claim_C1_witness :
    (extractInfo ⟨content1 ['A'] [], none⟩).training_stage = some 1 ∧
    (extractInfo ⟨content1 ['A'] [], none⟩).resume_path = ['A'] ∧
    (extractInfo ⟨content1 ['A'] [], none⟩).base_ckpt_source = stage1Label ∧
    (['A'] ≠ s2path → (extractInfo ⟨content1 ['A'] [], none⟩).resume_path ≠ s2path) :=
  claim_C1 ['A'] [] none (by decide)

/-- A digit character is not pattern whitespace. -/
theorem isSpace_of_isDigit (c : Char) (h : c.isDigit = true) : isSpace c = false := by
  cases hs : isSpace c with
  | false => rfl
  | true =>
    exfalso
    simp only [isSpace, Bool.or_eq_true, decide_eq_true_eq] at hs
    rcases hs with ((((h1 | h1) | h1) | h1) | h1) | h1 <;> rw [h1] at h <;>
      exact absurd h (by decide)

/-- A character whose code point is 49 is `'1'`. -/
theorem char_eq_one_of_toNat (c : Char) (h : c.toNat = 49) : c = '1' :=
  Char.ext (UInt32.ext h)

/-- The stage pattern extracts the digit's value from `content2`. -/
theorem searchStage_content2 (d : Char) (b post : List Char) (hdig : d.isDigit = true) :
    searchStage (content2 d b post) = some (d.toNat - 48) := by
  have hs1 : d ≠ ' ' := fun h => absurd (h ▸ hdig) (by decide)
  have hs2 : d ≠ '\t' := fun h => absurd (h ▸ hdig) (by decide)
  have hs3 : d ≠ '\n' := fun h => absurd (h ▸ hdig) (by decide)
  have hs4 : d ≠ '\x0d' := fun h => absurd (h ▸ hdig) (by decide)
  have hs5 : d ≠ '\x0b' := fun h => absurd (h ▸ hdig) (by decide)
  have hs6 : d ≠ '\x0c' := fun h => absurd (h ▸ hdig) (by decide)
  simp [content2, searchStage, stageScan, matchStageHere, eatLit, stageAfterName,
    stageLit, stageAssignD, ifLit, nlInd, rpLit, eqQuote, quoteNl, s1path, elseLit,
    pickFirst, isSpace, natOfDigits, hdig, hs1, hs2, hs3, hs4, hs5, hs6]

/-- The else-branch pattern captures the stage-2 literal of `content2`. -/
theorem elseSearch_content2 (d : Char) (b post : List Char)
    (hb : ∀ c ∈ b, isQuote c = false) :
    searchAfterLit elseLit rpLit (content2 d b post) = some b := by
  simp [content2, searchAfterLit, findLit, searchAssign, scanFirst, pickFirst, eatLit,
    matchAssignHere, afterEq, afterQuote, isQuote, isSpace, stageLit, stageAssignD,
    ifLit, nlInd, rpLit, eqQuote, quoteNl, elseLit, s1path]
  rw [takeUntilQuote_append b _ hb]

/-- The branch resolver on `content2`: stage-2 value and stage-2 label. -/
theorem resumeAndLabel_content2 (d : Char) (b post : List Char)
    (hdig : d.isDigit = true) (hd1 : d ≠ '1') (hb : ∀ c ∈ b, isQuote c = false) :
    resumeAndLabel (content2 d b post) = (b, stage2Label) := by
  have hne : d.toNat - 48 ≠ 1 := by
    intro h
    have h49 : d.toNat = 49 := by
      have hge : 48 ≤ d.toNat ∨ d.toNat - 48 = 0 := by omega
      omega
    exact hd1 (char_eq_one_of_toNat d h49)
  unfold resumeAndLabel
  rw [searchStage_content2 d b post hdig, if_neg (by simpa using hne),
    elseSearch_content2 d b post hb]

/-- C2: for every script whose extracted training stage is a digit other
than 1 (or absent), the resolver takes the `else:` branch's literal with
the label "Stage 2 Logic (Text-in-Image)" — not the earlier (global-first)
stage-1 literal — and when no else-block assignment exists both
`resume_path` and the label keep their `'Unknown'` defaults. -/
theorem claim_C2 :
    (∀ (d : Char) (b post : List Char) (ast : Option (List PyAssign)),
        d.isDigit = true → d ≠ '1' → (∀ c ∈ b, isQuote c = false) →
        (extractInfo ⟨content2 d b post, ast⟩).training_stage ≠ some 1 ∧
        (extractInfo ⟨content2 d b post, ast⟩).resume_path = b ∧
        (extractInfo ⟨content2 d b post, ast⟩).base_ckpt_source = stage2Label ∧
        (b ≠ s1path → (extractInfo ⟨content2 d b post, ast⟩).resume_path ≠ s1path)) ∧
    (∀ s : Script, searchStage s.content ≠ some 1 →
        searchAfterLit elseLit rpLit s.content = none →
        (extractInfo s).resume_path = unknownStr ∧
        (extractInfo s).base_ckpt_source = unknownStr) := by
  constructor
  · intro d b post ast hdig hd1 hb
    have hpair := resumeAndLabel_content2 d b post hdig hd1 hb
    have hne : d.toNat - 48 ≠ 1 := by
      intro h
      have h49 : d.toNat = 49 := by omega
      exact hd1 (char_eq_one_of_toNat d h49)
    refine ⟨?_, ?_, ?_, ?_⟩
    · show searchStage (content2 d b post) ≠ some 1
      rw [searchStage_content2 d b post hdig]
      simpa using hne
    · show (resumeAndLabel (content2 d b post)).1 = b
      rw [hpair]
    · show (resumeAndLabel (content2 d b post)).2 = stage2Label
      rw [hpair]
    · intro hbs
      show (resumeAndLabel (content2 d b post)).1 ≠ s1path
      rw [hpair]
      exact hbs
  · intro s h1 h2
    have hpair : resumeAndLabel s.content = (unknownStr, unknownStr) := by
      unfold resumeAndLabel
      rw [if_neg h1, h2]
    constructor
    · show (resumeAndLabel s.content).1 = unknownStr
      rw [hpair]
    · show (resumeAndLabel s.content).2 = unknownStr
      rw [hpair]

/-- C2 witness: stage digit `2` with else literal `B`, and a trivial
script with neither pattern. -/
theorem claim_C2_witness :
    ((extractInfo ⟨content2 '2' ['B'] [], none⟩).training_stage ≠ some 1 ∧
      (extractInfo ⟨content2 '2' ['B'] [], none⟩).resume_path = ['B'] ∧
      (extractInfo ⟨content2 '2' ['B'] [], none⟩).base_ckpt_source = stage2Label ∧
      (['B'] ≠ s1path →
        (extractInfo ⟨content2 '2' ['B'] [], none⟩).resume_path ≠ s1path)) ∧
    ((extractInfo ⟨['x'], some []⟩).resume_path = unknownStr ∧
      (extractInfo ⟨['x'], some []⟩).base_ckpt_source = unknownStr) :=
  ⟨claim_C2.1 '2' ['B'] [] none (by decide) (by decide) (by decide),
   claim_C2.2 ⟨['x'], some []⟩ (by decide) (by decide)⟩

/-- Constant elements pass through the walk's element loop verbatim. -/
theorem filterMap_constants (vs : List PyVal) :
    List.filterMap (eltVal ∘ PyElt.constant) vs = vs := by
  induction vs with
  | nil => rfl
  | cons v t ih => simp [Function.comp, eltVal, ih]

/-- String-constant elements come out as their strings, in order. -/
theorem filterMap_strConstants (ss : List (List Char)) :
    List.filterMap (eltVal ∘ fun s => PyElt.constant (PyVal.pstr s)) ss
      = ss.map PyVal.pstr := by
  induction ss with
  | nil => rfl
  | cons s t ih => simp [Function.comp, eltVal, ih]

/-- C3 counterexample: on a two-element `json_paths` list holding one
string literal and one concatenation expression, the extractor returns a
one-element sequence — the concatenation slot is dropped entirely rather
than replaced by the dynamic-path sentinel, so the claimed length
preservation fails. -/
theorem claim_C3_cex :
    c3elts.length = 2 ∧
    (extractInfo c3script).json_paths = [.pstr aJson] ∧
    (extractInfo c3script).json_paths.length ≠ c3elts.length := by
  refine ⟨rfl, rfl, by decide⟩

/-- C3 (amended): in the structural extraction, literal string elements
are appended verbatim in order and function-call elements are replaced by
the dynamic-path sentinel, but any other expression element (concatenation,
indexing, etc.) is silently dropped, shortening the result. -/
theorem claim_C3 (ss1 ss2 : List (List Char)) (content : List Char) :
    (extractInfo ⟨content,
        some [⟨[.name jsonLit],
          .listLit ((ss1.map fun s => PyElt.constant (.pstr s)) ++ (PyElt.call ::
            ((ss2.map fun s => PyElt.constant (.pstr s)) ++ [PyElt.otherExpr])))⟩]⟩).json_paths
      = (ss1.map PyVal.pstr) ++ (PyVal.pstr dynamicSentinel :: ss2.map PyVal.pstr) := by
  simp [extractInfo, jsonPathsOf, astJsonPaths, assignContrib, targetContrib,
    List.filterMap_append, List.filterMap_cons, filterMap_strConstants, eltVal]

/-- C10: every constant element of the `json_paths` list is appended
verbatim whatever its type, so an integer, boolean or `None` literal lands
in `dataset_paths` as that value — the all-strings invariant is broken by
non-string constants. -/
theorem claim_C10 :
    (∀ (vs : List PyVal) (content : List Char),
      (extractInfo ⟨content,
          some [⟨[.name jsonLit], .listLit (vs.map PyElt.constant)⟩]⟩).json_paths = vs) ∧
    ((extractInfo c10script).json_paths
        = [.pstr aJson, .pint 2, .pbool true, .pnone] ∧
      ¬ ∀ v ∈ (extractInfo c10script).json_paths, ∃ s, v = PyVal.pstr s) := by
  refine ⟨?_, rfl, ?_⟩
  · intro vs content
    simp [extractInfo, jsonPathsOf, astJsonPaths, assignContrib, targetContrib,
      filterMap_constants]
  · intro h
    obtain ⟨s, hs⟩ := h (.pint 2) (by decide)
    exact absurd hs (by simp)

/-- C5: when the structured configuration document file does not exist,
the Config Resolver returns without raising, with `injection` equal to the
documented sentinel "Unknown" and `use_calligraphy` equal to "Unknown". -/
theorem claim_C5 :
    (parse_yaml_config .missing).injection = .str unknownStr ∧
    (parse_yaml_config .missing).use_calligraphy = .str unknownStr :=
  ⟨rfl, rfl⟩

/-- C6: for a well-formed document in which
`model.params.embedding_manager_config` is entirely absent,
`use_calligraphy` resolves to the boolean `False` — not "Unknown" and not
an error — and intermediate missing keys default to empty mappings without
raising (an empty document yields `Not Set` and `False`). -/
theorem claim_C6 :
    (∀ kvs : List (List Char × Yaml), lookupKV embKey kvs = none →
      (parse_yaml_config (.parsed (.map [(modelKey,
        .map [(paramsKey, .map kvs)])]))).use_calligraphy = .bool false) ∧
    parse_yaml_config (.parsed (.map [])) = ⟨.str notSetStr, .bool false⟩ := by
  constructor
  · intro kvs h
    simp [parse_yaml_config, parse_yaml_body, pyGet, lookupKV, h]
  · rfl

/-- C6 witness: a document whose `params` mapping is empty. -/
theorem claim_C6_witness :
    (parse_yaml_config (.parsed (.map [(modelKey,
      .map [(paramsKey, .map [])])]))).use_calligraphy = .bool false :=
  claim_C6.1 [] rfl

/-- C9: degradation of the two config fields is not atomic: when
`context_injection_config` is readable but `embedding_manager_config`
holds a non-mapping value (so the nested `.get` raises), the resolver
keeps the already-extracted injection value and only `use_calligraphy`
degrades to "Unknown". -/
theorem claim_C9 (v emb : Yaml) (hemb : emb.isMapB = false) :
    parse_yaml_config (.parsed (.map [(modelKey, .map [(paramsKey,
        .map [(injKey, v), (embKey, emb)])])]))
      = ⟨v, unknownY⟩ := by
  have hk : injKey ≠ embKey := by decide
  cases emb <;>
    simp_all [parse_yaml_config, parse_yaml_body, pyGet, lookupKV, Yaml.isMapB, hk]

/-- C9 witness: a string-valued `embedding_manager_config`. -/
theorem claim_C9_witness :
    parse_yaml_config (.parsed (.map [(modelKey, .map [(paramsKey,
        .map [(injKey, .str ['x']), (embKey, .str ['y'])])])]))
      = ⟨.str ['x'], unknownY⟩ :=
  claim_C9 (.str ['x']) (.str ['y']) rfl

/-- C7: extraction fails outright (and `main` produces no report) exactly
when the script file is missing; every readable script text yields an
`ExtractedTrainingInfo` without raising, and when no pattern matches every
field keeps its documented default (`training_stage` absent, `resume_path`
"Unknown", `root_dir` "./checkpoints", `dataset_paths` empty, label
"Unknown"). -/
theorem claim_C7 :
    (parse_train_py none = none) ∧
    (∀ (fs : List Char → YamlFile) (d : List Char), main none fs d = none) ∧
    (∀ s : Script, ∃ ti, parse_train_py (some s) = some ti) ∧
    (∀ (s : Script) (fs : List Char → YamlFile) (d : List Char),
      ∃ out, main (some s) fs d = some out) ∧
    (∀ s : Script, searchStage s.content = none →
      searchAssign cpLit s.content = none →
      searchAssign rdLit s.content = none →
      searchAfterLit elseLit rpLit s.content = none →
      s.ast = some [] →
      parse_train_py (some s) = some
        { training_stage := none, resume_path := unknownStr, config_path := none,
          root_dir := rootDefault, json_paths := [], base_ckpt_source := unknownStr }) := by
  refine ⟨rfl, fun fs d => rfl, fun s => ⟨_, rfl⟩, fun s fs d => ⟨_, rfl⟩, ?_⟩
  intro s h1 h2 h3 h4 h5
  simp [parse_train_py, extractInfo, resumeAndLabel, jsonPathsOf, astJsonPaths,
    h1, h2, h3, h4, h5]

/-- C7 witness: a one-character script matching no pattern. -/
theorem claim_C7_witness :
    parse_train_py (some ⟨['x'], some []⟩) = some
      { training_stage := none, resume_path := unknownStr, config_path := none,
        root_dir := rootDefault, json_paths := [], base_ckpt_source := unknownStr } :=
  claim_C7.2.2.2.2 ⟨['x'], some []⟩ rfl rfl rfl rfl rfl

/-- C8: an extracted `config_path` that is the empty string is falsy, so
`main` resolves the configuration document to the caller-supplied default
path, not the empty string. -/
theorem claim_C8 (post : List Char) (ast : Option (List PyAssign))
    (fs : List Char → YamlFile) (d : List Char) :
    (extractInfo ⟨contentC8 post, ast⟩).config_path = some [] ∧
    resolveYamlFile (extractInfo ⟨contentC8 post, ast⟩) d = d ∧
    main (some ⟨contentC8 post, ast⟩) fs d
      = some (extractInfo ⟨contentC8 post, ast⟩, d, parse_yaml_config (fs d)) :=
  ⟨rfl, rfl, rfl⟩

/-- Concrete character-class evaluations used by the strip lemmas. -/
theorem isStrip_quote : isStrip '\'' = true := by decide

/-- The comma is in the strip set. -/
theorem isStrip_comma : isStrip ',' = true := by decide

/-- The space is pattern whitespace. -/
theorem isSpace_space : isSpace ' ' = true := by decide

/-- The quote is not whitespace. -/
theorem isSpace_quote : isSpace '\'' = false := by decide

/-- The comma is not whitespace. -/
theorem isSpace_comma : isSpace ',' = false := by decide

/-- Unpacking of the `goodItem` side conditions. -/
theorem goodItem_parts (s : List Char) (h : goodItem s = true) :
    s ≠ [] ∧ (∀ c ∈ s, c ≠ '\n' ∧ c ≠ ']') ∧
      headNotStrip s = true ∧ headNotStrip s.reverse = true := by
  simp only [goodItem, Bool.and_eq_true, List.all_eq_true] at h
  obtain ⟨⟨⟨h1, h2⟩, h3⟩, h4⟩ := h
  refine ⟨?_, ?_, h3, h4⟩
  · intro he
    subst he
    simp at h1
  · intro c hc
    have hcb := h2 c hc
    constructor
    · intro he
      subst he
      simp at hcb
    · intro he
      subst he
      simp at hcb

/-- Python's `line.strip()` on a template line stops at the quote in front and at
the comma behind, whatever the item is. -/
theorem stripWs_lineBody (s : List Char) :
    stripBoth isSpace (lineBody s) = '\'' :: (s ++ ['\'', ',']) := by
  unfold stripBoth lineBody
  have e1 : List.dropWhile isSpace ([' ', ' ', ' ', ' ', '\''] ++ (s ++ ['\'', ',']))
      = '\'' :: (s ++ ['\'', ',']) := by
    simp [List.dropWhile_cons, isSpace_space, isSpace_quote]
  rw [e1]
  have e2 : ('\'' :: (s ++ ['\'', ','])).reverse = ',' :: '\'' :: (s.reverse ++ ['\'']) := by
    simp
  rw [e2]
  have e3 : List.dropWhile isSpace (',' :: '\'' :: (s.reverse ++ ['\'']))
      = ',' :: '\'' :: (s.reverse ++ ['\'']) := by
    simp [List.dropWhile_cons, isSpace_comma]
  rw [e3, ← e2, List.reverse_reverse]

/-- Python's `line.strip("', ")` on a stripped template line peels exactly the
quote/comma padding when the item's ends are outside the strip set. -/
theorem stripStrip_inner (h : Char) (t : List Char) (c0 : Char) (r0 : List Char)
    (hrev : (h :: t).reverse = c0 :: r0)
    (hh : isStrip h = false) (hc0 : isStrip c0 = false) :
    stripBoth isStrip ('\'' :: ((h :: t) ++ ['\'', ','])) = h :: t := by
  unfold stripBoth
  have e1 : List.dropWhile isStrip ('\'' :: ((h :: t) ++ ['\'', ',']))
      = h :: (t ++ ['\'', ',']) := by
    simp [List.dropWhile_cons, isStrip_quote, hh]
  rw [e1]
  have e2 : (h :: (t ++ ['\'', ','])).reverse = ',' :: '\'' :: (h :: t).reverse := by
    simp
  rw [e2, hrev]
  have e3 : List.dropWhile isStrip (',' :: '\'' :: c0 :: r0) = c0 :: r0 := by
    simp [List.dropWhile_cons, isStrip_comma, isStrip_quote, hc0]
  rw [e3, ← hrev, List.reverse_reverse]

/-- A template line is recovered exactly by the fallback's per-line
processing. -/
theorem cleanLine_lineBody (s : List Char) (hg : goodItem s = true) :
    cleanLine (lineBody s) = some s := by
  obtain ⟨hne, _, hhd, hrv⟩ := goodItem_parts s hg
  obtain ⟨h, t, rfl⟩ : ∃ h t, s = h :: t := by
    cases s with
    | nil => exact absurd rfl hne
    | cons a b => exact ⟨a, b, rfl⟩
  obtain ⟨c0, r0, hrev⟩ : ∃ c0 r0, (h :: t).reverse = c0 :: r0 := by
    rcases List.exists_cons_of_ne_nil (l := (h :: t).reverse) (by simp) with ⟨c0, r0, hr⟩
    exact ⟨c0, r0, hr⟩
  have hh : isStrip h = false := by
    simp only [headNotStrip, Bool.not_eq_true'] at hhd
    exact hhd
  have hc0 : isStrip c0 = false := by
    rw [hrev] at hrv
    simp only [headNotStrip, Bool.not_eq_true'] at hrv
    exact hrv
  show dropHash (stripBoth isSpace (lineBody (h :: t))) = some (h :: t)
  rw [stripWs_lineBody]
  show (if ('\'' : Char) = '#' then none
    else keepNonEmpty (stripBoth isStrip ('\'' :: ((h :: t) ++ ['\'', ','])))) = some (h :: t)
  rw [if_neg (by decide : ¬ ('\'' : Char) = '#'), stripStrip_inner h t c0 r0 hrev hh hc0]
  rfl

/-- Python's `str.split` peels one newline-terminated piece off the front. -/
theorem splitOnNl_append (x r : List Char) (hx : ∀ c ∈ x, c ≠ '\n') :
    splitOnNl (x ++ '\n' :: r) = x :: splitOnNl r := by
  induction x with
  | nil => simp [splitOnNl]
  | cons c t ih =>
    have hc : c ≠ '\n' := hx c (by simp)
    simp only [List.cons_append, splitOnNl, hc, if_false, List.append_eq]
    rw [ih (fun d hd => hx d (by simp [hd]))]

/-- Splitting the newline-terminated template lines yields exactly the
line bodies plus a final empty piece. -/
theorem splitOnNl_itemsOf (ss : List (List Char)) (hss : ∀ s ∈ ss, ∀ c ∈ s, c ≠ '\n') :
    splitOnNl (itemsOf ss) = ss.map lineBody ++ [[]] := by
  induction ss with
  | nil => simp [itemsOf, splitOnNl]
  | cons s t ih =>
    have hline : ∀ c ∈ lineBody s, c ≠ '\n' := by
      intro c hc he
      subst he
      simp [lineBody] at hc
      exact (hss s (by simp) '\n' hc) rfl
    simp only [itemsOf]
    rw [splitOnNl_append (lineBody s) (itemsOf t) hline,
      ih (fun u hu => hss u (by simp [hu]))]
    simp

/-- No interior line of the template contains the closing bracket. -/
theorem itemsOf_no_rb (ss : List (List Char)) (hss : ∀ s ∈ ss, goodItem s = true) :
    ∀ c ∈ itemsOf ss, c ≠ ']' := by
  induction ss with
  | nil =>
    intro c hc
    simp [itemsOf] at hc
  | cons s t ih =>
    intro c hc hcq
    subst hcq
    simp only [itemsOf, List.mem_append, List.mem_cons] at hc
    rcases hc with hc | hc | hc
    · simp [lineBody] at hc
      exact ((goodItem_parts s (hss s (by simp))).2.1 ']' hc).2 rfl
    · exact absurd hc (by decide)
    · exact (ih (fun u hu => hss u (by simp [hu])) ']' hc) rfl

/-- The fallback loop maps template lines to their items, dropping the
final empty piece. -/
theorem filterMap_clean_items (ss : List (List Char)) (hss : ∀ s ∈ ss, goodItem s = true) :
    List.filterMap cleanLine (ss.map lineBody ++ [[]]) = ss := by
  induction ss with
  | nil => decide
  | cons s t ih =>
    have h1 : cleanLine (lineBody s) = some s := cleanLine_lineBody s (hss s (by simp))
    simp only [List.map_cons, List.cons_append, List.filterMap_cons, h1]
    rw [ih (fun u hu => hss u (by simp [hu]))]

/-- The whole textual fallback on the template recovers the items
verbatim, in order, discarding the blank and comment lines. -/
theorem fallback_contentC4 (ss : List (List Char)) (post : List Char)
    (hss : ∀ s ∈ ss, goodItem s = true) :
    fallbackJsonPaths (contentC4 ss post) = ss.map PyVal.pstr := by
  have hnl : ∀ s ∈ ss, ∀ c ∈ s, c ≠ '\n' :=
    fun s hs c hc => ((goodItem_parts s (hss s hs)).2.1 c hc).1
  have hrb : takeUntilRB ('\n' :: (commentBody ++ ('\n' ::
        (itemsOf ss ++ (']' :: ('\n' :: post))))))
      = some ('\n' :: (commentBody ++ ('\n' :: itemsOf ss))) := by
    have hxmem : ∀ c ∈ ('\n' :: (commentBody ++ ('\n' :: itemsOf ss))), c ≠ ']' := by
      intro c hc hcq
      subst hcq
      simp only [List.mem_cons, List.mem_append, commentBody] at hc
      rcases hc with hc | hc | hc
      · exact absurd hc (by decide)
      · rcases hc with hc | hc | hc | hc | hc | hc | hc <;> exact absurd hc (by decide)
      · rcases hc with hc | hc
        · exact absurd hc (by decide)
        · exact (itemsOf_no_rb ss hss ']' hc) rfl
    have hmain := takeUntilRB_append ('\n' :: (commentBody ++ ('\n' :: itemsOf ss)))
      ('\n' :: post) hxmem
    simpa [List.append_assoc] using hmain
  have hscan : scanFirst matchJsonHere (contentC4 ss post)
      = some ('\n' :: (commentBody ++ ('\n' :: itemsOf ss))) := by
    simp [contentC4, scanFirst, pickFirst, matchJsonHere, eatLit, jsonAfterEq,
      jsonBracket, jsonLit, isSpace, hrb]
  have hsplit : splitOnNl ('\n' :: (commentBody ++ ('\n' :: itemsOf ss)))
      = [] :: commentBody :: (ss.map lineBody ++ [[]]) := by
    have h1 : splitOnNl ('\n' :: (commentBody ++ ('\n' :: itemsOf ss)))
        = [] :: splitOnNl (commentBody ++ ('\n' :: itemsOf ss)) := by
      simp [splitOnNl]
    rw [h1, splitOnNl_append commentBody (itemsOf ss) (by decide),
      splitOnNl_itemsOf ss hnl]
  have hshape : fallbackJsonPaths (contentC4 ss post)
      = List.map PyVal.pstr (List.filterMap cleanLine
          (splitOnNl ('\n' :: (commentBody ++ ('\n' :: itemsOf ss))))) := by
    unfold fallbackJsonPaths
    rw [hscan]
  rw [hshape, hsplit]
  have hcl2 : cleanLine commentBody = none := by decide
  simp [List.filterMap_cons, hcl2, filterMap_clean_items ss hss]
  rfl

/-- C4: the textual fallback is consulted exactly when the syntax-tree
parse raised (`Script.ast = none`); in that case, on a `json_paths = [...]`
span holding one single-quoted literal per line with trailing commas, it
recovers exactly those strings in order, discarding blank lines and
comment lines and stripping the quote/comma/space padding. -/
theorem claim_C4 :
    (∀ (content : List Char) (assigns : List PyAssign),
      jsonPathsOf ⟨content, some assigns⟩ = astJsonPaths assigns) ∧
    (∀ content : List Char, jsonPathsOf ⟨content, none⟩ = fallbackJsonPaths content) ∧
    (∀ (ss : List (List Char)) (post : List Char), (∀ s ∈ ss, goodItem s = true) →
      (extractInfo ⟨contentC4 ss post, none⟩).json_paths = ss.map PyVal.pstr) := by
  refine ⟨fun content assigns => rfl, fun content => rfl, ?_⟩
  intro ss post hss
  show jsonPathsOf ⟨contentC4 ss post, none⟩ = ss.map PyVal.pstr
  show fallbackJsonPaths (contentC4 ss post) = ss.map PyVal.pstr
  exact fallback_contentC4 ss post hss

/-- C4 witness: the fallback on a two-item list. -/
theorem claim_C4_witness :
    (extractInfo ⟨contentC4 [['a', '1'], ['b']] [], none⟩).json_paths
      = [PyVal.pstr ['a', '1'], PyVal.pstr ['b']] :=
  claim_C4.2.2 [['a', '1'], ['b']] [] (by decide)

/-- C10 witness: a one-element list holding an integer constant. -/
theorem claim_C10_witness :
    (extractInfo ⟨['x'],
        some [⟨[.name jsonLit],
          .listLit ([PyVal.pint 2].map PyElt.constant)⟩]⟩).json_paths = [PyVal.pint 2] :=
  claim_C10.1 [PyVal.pint 2] ['x']

end CalliPaint

